import Mathlib

/-!
Verification of the sync lookup state machine and RPC rate-limiting layer of the
lighthouse repository, shallowly embedded from
src/beacon_node/network/src/sync/block_lookups/mod.rs,
src/beacon_node/network/src/sync/manager.rs and
src/beacon_node/lighthouse_network/src/rpc/mod.rs.

Hashes, peer ids, request ids, slots and time instants are modelled as natural numbers.
Network and processor side effects are modelled as explicit output lists carried in a
context record, mirroring the SyncNetworkContext and the beacon-processor channel.
Modules that the source files import but that are not present in the repository
snapshot (parent_lookup.rs, single_block_lookup.rs, active_requests_limiter.rs,
rate_limiter.rs, self_limiter.rs) are modelled from the specification and are marked
as such in their doc comments.
-/

namespace LighthouseSync

abbrev Hash256 := Nat
abbrev PeerId := Nat
abbrev Id := Nat
abbrev Slot := Nat

/-- PeerSource from block_lookups/mod.rs: attribution of the peer that referenced a block. -/
inductive PeerSource
  | attestationSource (peer : PeerId)
  | gossipSource (peer : PeerId)
deriving DecidableEq, Repr

/-- Mirrors PeerSource::to_peer_id. -/
def PeerSource.toPeerId : PeerSource → PeerId
  | .attestationSource p => p
  | .gossipSource p => p

/-- ResponseType from block_lookups/mod.rs. -/
inductive ResponseType
  | block
  | blob
deriving DecidableEq, Repr

/-- ShouldRemoveLookup from block_lookups/mod.rs. -/
inductive ShouldRemoveLookup
  | yes
  | no
deriving DecidableEq, Repr

/-- PeerAction severity tiers used by report_peer. -/
inductive PeerAction
  | lowToleranceError
  | midToleranceError
  | highToleranceError
  | fatal
deriving DecidableEq, Repr

/-- The constant static strings passed to report_peer, modelled as an enumeration. -/
inductive ReportReason
  | chainTooLongMsg
  | tooManyAttemptsMsg
  | noPeersMsg
  | sendFailedMsg
  | bbrootFailedChains
  | singleBlockFailure
  | parentChainFailure
  | parentRequestErr
  | invalidParentResponse
deriving DecidableEq, Repr

/-- A lookup request placed on the wire via the SyncNetworkContext; the tag records
whether it was issued through single_block_lookup_request or single_blobs_lookup_request. -/
inductive LookupRequest
  | blockRequest (peer : PeerId) (root : Hash256)
  | blobRequest (peer : PeerId) (root : Hash256)
deriving DecidableEq, Repr

/-- Kind of a wire lookup request. -/
def LookupRequest.kind : LookupRequest → ResponseType
  | .blockRequest _ _ => .block
  | .blobRequest _ _ => .blob

/-- BlockProcessType from manager.rs. -/
inductive BlockProcessType
  | singleBlock (id : Id)
  | parentLookupType (chainHash : Hash256)
deriving DecidableEq, Repr

/-- Work events submitted to the beacon processor channel. -/
inductive ProcessorEvent
  | rpcBeaconBlock (root : Hash256) (processType : BlockProcessType)
  | rpcBlobs (root : Hash256) (processType : BlockProcessType)
  | chainSegment (chainHash : Hash256) (blocks : List Hash256)
deriving DecidableEq, Repr

/-- Model of the SyncNetworkContext: the only component that places wire requests,
scores peers, and exposes the beacon-processor channel. Outbound effects are recorded
in lists; request ids are allocated monotonically from next_id; the processor channel
has a remaining capacity and try_send fails when it is exhausted or disabled. -/
structure SyncNetworkContext where
  next_id : Id
  sent_requests : List (Id × LookupRequest)
  reports : List (PeerId × PeerAction × ReportReason)
  processor_enabled : Bool
  processor_capacity : Nat
  processor_events : List ProcessorEvent
deriving DecidableEq, Repr

/-- Mirrors cx.single_block_lookup_request: allocates an id and records the request. -/
def SyncNetworkContext.singleBlockLookupRequest (cx : SyncNetworkContext) (peer : PeerId)
    (root : Hash256) : Id × SyncNetworkContext :=
  (cx.next_id,
   { cx with
      next_id := cx.next_id + 1
      sent_requests := cx.sent_requests ++ [(cx.next_id, .blockRequest peer root)] })

/-- Mirrors cx.single_blobs_lookup_request: allocates an id and records the request. -/
def SyncNetworkContext.singleBlobsLookupRequest (cx : SyncNetworkContext) (peer : PeerId)
    (root : Hash256) : Id × SyncNetworkContext :=
  (cx.next_id,
   { cx with
      next_id := cx.next_id + 1
      sent_requests := cx.sent_requests ++ [(cx.next_id, .blobRequest peer root)] })

/-- Mirrors cx.report_peer. -/
def SyncNetworkContext.reportPeer (cx : SyncNetworkContext) (peer : PeerId)
    (action : PeerAction) (reason : ReportReason) : SyncNetworkContext :=
  { cx with reports := cx.reports ++ [(peer, action, reason)] }

/-- A beacon block, reduced to the fields the lookup layer inspects. -/
structure BeaconBlock where
  root : Hash256
  parent_root : Hash256
  slot : Slot
deriving DecidableEq, Repr

/-- A blob sidecar, reduced to the fields the lookup layer inspects. -/
structure BlobSidecar where
  block_root : Hash256
  index : Nat
deriving DecidableEq, Repr

/-- Download progress of one request state, as described by the spec for RequestState. -/
inductive DownloadState
  | awaitingDownload
  | downloading (peer : PeerId)
  | downloaded
  | processingState
  | processed
deriving DecidableEq, Repr

/-- Modelled from the spec: single_block_lookup.rs is not under src/. A RequestState (one
per response kind, block or blob) tracks its download state, the set of peers already
tried, the peers available to serve the object, and the failure counters that are
compared against the attempt budget. -/
structure RequestState where
  state : DownloadState
  available_peers : List PeerId
  used_peers : List PeerId
  failed_downloading : Nat
  failed_processing : Nat
deriving DecidableEq, Repr

/-- Total failed attempts of a request state. -/
def RequestState.failedAttempts (rs : RequestState) : Nat :=
  rs.failed_downloading + rs.failed_processing

/-- Modelled from the spec: single_block_lookup.rs is not under src/. A wire-level
download failure increments the downloading-failure counter and re-arms the state for
another download attempt. -/
def RequestState.registerFailureDownloading (rs : RequestState) : RequestState :=
  { rs with failed_downloading := rs.failed_downloading + 1, state := .awaitingDownload }

/-- Modelled from the spec: single_block_lookup.rs is not under src/. Adds a candidate
peer for this object if it is not already known. -/
def RequestState.addPeer (rs : RequestState) (peer : PeerId) : RequestState :=
  if rs.available_peers.contains peer then rs
  else { rs with available_peers := rs.available_peers ++ [peer] }

/-- Errors produced when a request state cannot issue a new download attempt. -/
inductive LookupRequestError
  | tooManyAttempts
  | noPeers
deriving DecidableEq, Repr

/-- Modelled from the spec: single_block_lookup.rs is not under src/. Issuing a request
for one response kind: if the object is not awaiting download nothing is requested
(it was found via other means); if the failure counters exhausted the attempt budget
the lookup errors; otherwise an untried candidate peer is selected, marked used and
the state moves to downloading. -/
def RequestState.request (rs : RequestState) (maxAttempts : Nat) :
    Except LookupRequestError (Option (PeerId × RequestState)) :=
  match rs.state with
  | .awaitingDownload =>
    if maxAttempts ≤ rs.failedAttempts then .error .tooManyAttempts
    else
      match rs.available_peers.find? (fun p => !(rs.used_peers.contains p)) with
      | none => .error .noPeers
      | some peer =>
        .ok (some (peer,
          { rs with state := .downloading peer, used_peers := rs.used_peers ++ [peer] }))
  | _ => .ok none

/-- A fresh request state with a single candidate peer. -/
def RequestState.new (peer : PeerId) : RequestState :=
  { state := .awaitingDownload
    available_peers := [peer]
    used_peers := []
    failed_downloading := 0
    failed_processing := 0 }

/-- SINGLE_BLOCK_LOOKUP_MAX_ATTEMPTS from block_lookups/mod.rs. -/
def SINGLE_BLOCK_LOOKUP_MAX_ATTEMPTS : Nat := 3

/-- Modelled from the spec: the value of PARENT_FAIL_TOLERANCE lives in the absent
parent_lookup.rs; the spec only calls it a small chain-depth tolerance. The theorems
below do not depend on the concrete value. -/
def PARENT_FAIL_TOLERANCE : Nat := 8

/-- Modelled from the spec: single_block_lookup.rs is not under src/. A SingleBlockLookup
uniquely identifies one desired block root and owns one RequestState for the block and
one for the blobs. -/
structure SingleBlockLookup where
  requested_block_root : Hash256
  block_request_state : RequestState
  blob_request_state : RequestState
  downloaded_block : Option BeaconBlock
  downloaded_blobs : List BlobSidecar
deriving DecidableEq, Repr

/-- A fresh single lookup for a root sourced from one peer. -/
def SingleBlockLookup.new (root : Hash256) (source : PeerSource) : SingleBlockLookup :=
  { requested_block_root := root
    block_request_state := RequestState.new source.toPeerId
    blob_request_state := RequestState.new source.toPeerId
    downloaded_block := none
    downloaded_blobs := [] }

/-- Modelled from the spec: single_block_lookup.rs is not under src/. Per the spec,
search deduplication merges a new reference to an already-tracked root by adding the
peer as an additional candidate rather than starting new work; the call reports whether
the root matched this lookup. -/
def SingleBlockLookup.addPeerIfUseful (req : SingleBlockLookup) (hash : Hash256)
    (source : PeerSource) : Bool × SingleBlockLookup :=
  if req.requested_block_root = hash then
    (true,
     { req with
        block_request_state := req.block_request_state.addPeer source.toPeerId
        blob_request_state := req.blob_request_state.addPeer source.toPeerId })
  else (false, req)

/-- Mirrors SingleBlockLookup::request_block with the single-lookup attempt budget. -/
def SingleBlockLookup.requestBlock (req : SingleBlockLookup) :
    Except LookupRequestError (Option (PeerId × Hash256) × SingleBlockLookup) :=
  match req.block_request_state.request SINGLE_BLOCK_LOOKUP_MAX_ATTEMPTS with
  | .error e => .error e
  | .ok none => .ok (none, req)
  | .ok (some (peer, rs)) =>
    .ok (some (peer, req.requested_block_root), { req with block_request_state := rs })

/-- Mirrors SingleBlockLookup::request_blobs with the single-lookup attempt budget. -/
def SingleBlockLookup.requestBlobs (req : SingleBlockLookup) :
    Except LookupRequestError (Option (PeerId × Hash256) × SingleBlockLookup) :=
  match req.blob_request_state.request SINGLE_BLOCK_LOOKUP_MAX_ATTEMPTS with
  | .error e => .error e
  | .ok none => .ok (none, req)
  | .ok (some (peer, rs)) =>
    .ok (some (peer, req.requested_block_root), { req with blob_request_state := rs })

/-- Modelled from the spec: parent_lookup.rs is not under src/. A ParentLookup owns the
chain of blocks walking back from the tip (identified by chain_hash), the root of the
parent currently being fetched, the request-state pair for that parent (reusing the
SingleBlockLookup bookkeeping, with the parent attempt budget), and the ids of the
in-flight block and blob requests. -/
structure ParentLookup where
  chain_hash : Hash256
  downloaded_block_roots : List Hash256
  current_parent_root : Hash256
  current_parent_request : SingleBlockLookup
  block_request_id : Option Id
  blob_request_id : Option Id
deriving DecidableEq, Repr

/-- Mirrors ParentLookup::new. -/
def ParentLookup.new (blockRoot parentRoot : Hash256) (source : PeerSource) : ParentLookup :=
  { chain_hash := blockRoot
    downloaded_block_roots := []
    current_parent_root := parentRoot
    current_parent_request := SingleBlockLookup.new parentRoot source
    block_request_id := none
    blob_request_id := none }

/-- Modelled from the spec: parent_lookup.rs is not under src/. A parent lookup contains
a block when that block was already downloaded as part of its chain. -/
def ParentLookup.containsBlock (pl : ParentLookup) (hash : Hash256) : Bool :=
  pl.downloaded_block_roots.contains hash

/-- Modelled from the spec: parent_lookup.rs is not under src/. The peer is useful when
the searched hash is the parent currently being fetched by this chain; it is then added
as a candidate for the current parent request. -/
def ParentLookup.addPeerIfUseful (pl : ParentLookup) (hash : Hash256) (source : PeerSource) :
    Bool × ParentLookup :=
  let r := pl.current_parent_request.addPeerIfUseful hash source
  (r.1, { pl with current_parent_request := r.2 })

/-- Mirrors ParentLookup::pending_block_response. -/
def ParentLookup.pendingBlockResponse (pl : ParentLookup) (id : Id) : Bool :=
  pl.block_request_id = some id

/-- Mirrors ParentLookup::pending_blob_response. -/
def ParentLookup.pendingBlobResponse (pl : ParentLookup) (id : Id) : Bool :=
  pl.blob_request_id = some id

/-- Mirrors ParentLookup::used_peers for one response type. -/
def ParentLookup.usedPeers (pl : ParentLookup) (rt : ResponseType) : List PeerId :=
  match rt with
  | .block => pl.current_parent_request.block_request_state.used_peers
  | .blob => pl.current_parent_request.blob_request_state.used_peers

/-- Mirrors ParentLookup::block_download_failed. -/
def ParentLookup.blockDownloadFailed (pl : ParentLookup) : ParentLookup :=
  { pl with
      current_parent_request :=
        { pl.current_parent_request with
            block_request_state :=
              pl.current_parent_request.block_request_state.registerFailureDownloading } }

/-- Mirrors ParentLookup::blob_download_failed. -/
def ParentLookup.blobDownloadFailed (pl : ParentLookup) : ParentLookup :=
  { pl with
      current_parent_request :=
        { pl.current_parent_request with
            blob_request_state :=
              pl.current_parent_request.blob_request_state.registerFailureDownloading } }

/-- RequestError from parent_lookup.rs, as matched by BlockLookups::handle_response. -/
inductive RequestError
  | sendFailed
  | chainTooLong
  | tooManyAttempts (cannot_process : Bool)
  | noPeers
deriving DecidableEq, Repr

/-- Mirrors RequestError::as_static, mapped onto the report-reason enumeration. -/
def RequestError.asStatic : RequestError → ReportReason
  | .sendFailed => .sendFailedMsg
  | .chainTooLong => .chainTooLongMsg
  | .tooManyAttempts _ => .tooManyAttemptsMsg
  | .noPeers => .noPeersMsg

/-- Modelled from the spec: parent_lookup.rs is not under src/. Requesting the next
parent block fails with ChainTooLong once the chain has reached the depth bound,
otherwise it defers to the current parent request state with the parent attempt budget. -/
def ParentLookup.requestParentBlock (pl : ParentLookup) (cx : SyncNetworkContext) :
    Except RequestError Unit × ParentLookup × SyncNetworkContext :=
  if PARENT_FAIL_TOLERANCE ≤ pl.downloaded_block_roots.length then
    (.error .chainTooLong, pl, cx)
  else
    match pl.current_parent_request.block_request_state.request PARENT_FAIL_TOLERANCE with
    | .error .tooManyAttempts =>
      (.error (.tooManyAttempts
        (pl.current_parent_request.block_request_state.failed_downloading ≤
          pl.current_parent_request.block_request_state.failed_processing)), pl, cx)
    | .error .noPeers => (.error .noPeers, pl, cx)
    | .ok none => (.ok (), pl, cx)
    | .ok (some (peer, rs)) =>
      let sent := cx.singleBlockLookupRequest peer pl.current_parent_root
      (.ok (),
       { pl with
          current_parent_request :=
            { pl.current_parent_request with block_request_state := rs }
          block_request_id := some sent.1 },
       sent.2)

/-- Modelled from the spec: parent_lookup.rs is not under src/. Blob counterpart of
requestParentBlock. -/
def ParentLookup.requestParentBlobs (pl : ParentLookup) (cx : SyncNetworkContext) :
    Except RequestError Unit × ParentLookup × SyncNetworkContext :=
  if PARENT_FAIL_TOLERANCE ≤ pl.downloaded_block_roots.length then
    (.error .chainTooLong, pl, cx)
  else
    match pl.current_parent_request.blob_request_state.request PARENT_FAIL_TOLERANCE with
    | .error .tooManyAttempts =>
      (.error (.tooManyAttempts
        (pl.current_parent_request.blob_request_state.failed_downloading ≤
          pl.current_parent_request.blob_request_state.failed_processing)), pl, cx)
    | .error .noPeers => (.error .noPeers, pl, cx)
    | .ok none => (.ok (), pl, cx)
    | .ok (some (peer, rs)) =>
      let sent := cx.singleBlobsLookupRequest peer pl.current_parent_root
      (.ok (),
       { pl with
          current_parent_request :=
            { pl.current_parent_request with blob_request_state := rs }
          blob_request_id := some sent.1 },
       sent.2)

/-- The BlockLookups manager state from block_lookups/mod.rs: the parent chains being
downloaded, the parent chains handed to the processor (chain hash mapped to its block
hashes and last parent request), the failed-chains cache (TTL is not modelled; the
cache is a set of roots), and the single block lookups with their block and blob
request ids. -/
structure BlockLookups where
  parent_lookups : List ParentLookup
  processing_parent_lookups : List (Hash256 × List Hash256 × SingleBlockLookup)
  failed_chains : List Hash256
  single_block_lookups : List (Option Id × Option Id × SingleBlockLookup)
deriving DecidableEq, Repr

/-- Applies an update-returning predicate to successive list elements, stopping at the
first success, as Rust iter_mut().any does with a mutating closure. -/
def anyUpdate (f : α → Bool × α) : List α → Bool × List α
  | [] => (false, [])
  | x :: xs =>
    let fx := f x
    if fx.1 then (true, fx.2 :: xs)
    else
      let r := anyUpdate f xs
      (r.1, fx.2 :: r.2)

theorem anyUpdate_fst (f : α → Bool × α) (l : List α) :
    (anyUpdate f l).1 = l.any (fun x => (f x).1) := by
  induction l with
  | nil => rfl
  | cons x xs ih =>
    simp only [anyUpdate, List.any_cons]
    by_cases h : (f x).1
    · simp [h]
    · simp [h, ih]

theorem anyUpdate_length (f : α → Bool × α) (l : List α) :
    (anyUpdate f l).2.length = l.length := by
  induction l with
  | nil => rfl
  | cons x xs ih =>
    simp only [anyUpdate]
    by_cases h : (f x).1
    · simp [h]
    · simp [h, ih]

theorem anyUpdate_map (f : α → Bool × α) (g : α → β) (l : List α)
    (h : ∀ x, g (f x).2 = g x) : (anyUpdate f l).2.map g = l.map g := by
  induction l with
  | nil => rfl
  | cons x xs ih =>
    simp only [anyUpdate]
    by_cases hx : (f x).1
    · simp [hx, h]
    · simp [hx, h, ih]

/-- Mirrors BlockLookups::search_block_with: deduplicates the searched hash against the
single lookups, the parent lookups (both the parent currently being fetched and the
blocks already downloaded in a chain), and the parent chains being processed; if the
hash is genuinely new a SingleBlockLookup is created, block and blob requests are
issued, and the lookup is pushed with the returned request ids. -/
def BlockLookups.searchBlockWith (st : BlockLookups)
    (cacheFn : SingleBlockLookup → SingleBlockLookup) (hash : Hash256)
    (peerSource : PeerSource) (cx : SyncNetworkContext) : BlockLookups × SyncNetworkContext :=
  let singles := anyUpdate (fun e =>
    let r := e.2.2.addPeerIfUseful hash peerSource
    (r.1, (e.1, e.2.1, r.2))) st.single_block_lookups
  if singles.1 then ({ st with single_block_lookups := singles.2 }, cx)
  else
    let parents := anyUpdate (fun pl =>
      let r := pl.addPeerIfUseful hash peerSource
      (r.1 || r.2.containsBlock hash, r.2)) st.parent_lookups
    if parents.1 then ({ st with parent_lookups := parents.2 }, cx)
    else
      if st.processing_parent_lookups.any (fun e => e.2.1.contains hash) then (st, cx)
      else
        let req0 := cacheFn (SingleBlockLookup.new hash peerSource)
        let blockStep : Option Id × SingleBlockLookup × SyncNetworkContext :=
          match req0.requestBlock with
          | .ok (some (peer, root), req1) =>
            let sent := cx.singleBlockLookupRequest peer root
            (some sent.1, req1, sent.2)
          | .ok (none, req1) => (none, req1, cx)
          | .error _ => (none, req0, cx)
        let blobStep : Option Id × SingleBlockLookup × SyncNetworkContext :=
          match blockStep.2.1.requestBlobs with
          | .ok (some (peer, root), req2) =>
            let sent := blockStep.2.2.singleBlobsLookupRequest peer root
            (some sent.1, req2, sent.2)
          | .ok (none, req2) => (none, req2, blockStep.2.2)
          | .error _ => (none, blockStep.2.1, blockStep.2.2)
        ({ st with
            single_block_lookups :=
              st.single_block_lookups ++ [(blockStep.1, blobStep.1, blobStep.2.1)] },
         blobStep.2.2)

/-- Mirrors BlockLookups::search_block. -/
def BlockLookups.searchBlock (st : BlockLookups) (hash : Hash256) (peerSource : PeerSource)
    (cx : SyncNetworkContext) : BlockLookups × SyncNetworkContext :=
  st.searchBlockWith id hash peerSource cx

/-- The root tracked by a single-lookup entry. -/
def entryRoot (e : Option Id × Option Id × SingleBlockLookup) : Hash256 :=
  e.2.2.requested_block_root

/-- A hash is tracked by the lookup manager when a single lookup targets it, a parent
lookup is fetching it or already downloaded it, or a processing parent chain contains it. -/
def BlockLookups.tracks (st : BlockLookups) (hash : Hash256) : Prop :=
  (∃ e ∈ st.single_block_lookups, entryRoot e = hash)
  ∨ (∃ pl ∈ st.parent_lookups,
      pl.current_parent_request.requested_block_root = hash ∨ pl.containsBlock hash)
  ∨ (∃ e ∈ st.processing_parent_lookups, e.2.1.contains hash)

theorem singles_flag_of_tracked (st : BlockLookups) (hash : Hash256) (ps : PeerSource)
    (h : ∃ e ∈ st.single_block_lookups, entryRoot e = hash) :
    (anyUpdate (fun e =>
      let r := e.2.2.addPeerIfUseful hash ps
      (r.1, (e.1, e.2.1, r.2))) st.single_block_lookups).1 = true := by
  rw [anyUpdate_fst]
  rcases h with ⟨e, he, hroot⟩
  refine List.any_eq_true.mpr ⟨e, he, ?_⟩
  simp only [SingleBlockLookup.addPeerIfUseful, entryRoot] at *
  simp [hroot]

theorem parents_flag_of_tracked (st : BlockLookups) (hash : Hash256) (ps : PeerSource)
    (h : ∃ pl ∈ st.parent_lookups,
      pl.current_parent_request.requested_block_root = hash ∨ pl.containsBlock hash) :
    (anyUpdate (fun pl =>
      let r := pl.addPeerIfUseful hash ps
      (r.1 || r.2.containsBlock hash, r.2)) st.parent_lookups).1 = true := by
  rw [anyUpdate_fst]
  rcases h with ⟨pl, hpl, hcase⟩
  refine List.any_eq_true.mpr ⟨pl, hpl, ?_⟩
  simp only [ParentLookup.addPeerIfUseful, SingleBlockLookup.addPeerIfUseful]
  rcases hcase with hroot | hcontains
  · simp [hroot]
  · by_cases hr : pl.current_parent_request.requested_block_root = hash
    · simp [hr]
    · simp only [hr, if_neg hr]
      simp [ParentLookup.containsBlock] at hcontains ⊢
      exact hcontains

/-- C1: searching an already-tracked root neither creates a lookup nor issues a request:
the peer is at most recorded as an additional candidate, and every tracked root is
preserved, so at most one lookup entry per root ever exists. -/
theorem searchBlockWith_tracked_noop (st : BlockLookups) (cacheFn : SingleBlockLookup → SingleBlockLookup)
    (hash : Hash256) (ps : PeerSource) (cx : SyncNetworkContext)
    (h : st.tracks hash) :
    let out := st.searchBlockWith cacheFn hash ps cx
    out.1.single_block_lookups.length = st.single_block_lookups.length
    ∧ out.1.single_block_lookups.map entryRoot = st.single_block_lookups.map entryRoot
    ∧ out.1.parent_lookups.length = st.parent_lookups.length
    ∧ out.1.parent_lookups.map ParentLookup.chain_hash = st.parent_lookups.map ParentLookup.chain_hash
    ∧ out.1.processing_parent_lookups = st.processing_parent_lookups
    ∧ out.1.failed_chains = st.failed_chains
    ∧ out.2.sent_requests = cx.sent_requests
    ∧ out.2.next_id = cx.next_id := by
  intro out
  have hroots : ∀ e : Option Id × Option Id × SingleBlockLookup,
      entryRoot (e.1, e.2.1, (e.2.2.addPeerIfUseful hash ps).2) = entryRoot e := by
    intro e
    simp only [SingleBlockLookup.addPeerIfUseful, entryRoot]
    by_cases hr : e.2.2.requested_block_root = hash <;> simp [hr]
  have hchain : ∀ pl : ParentLookup, (pl.addPeerIfUseful hash ps).2.chain_hash = pl.chain_hash := by
    intro pl
    simp only [ParentLookup.addPeerIfUseful]
  by_cases hflag1 : (anyUpdate (fun e =>
      let r := e.2.2.addPeerIfUseful hash ps
      (r.1, (e.1, e.2.1, r.2))) st.single_block_lookups).1 = true
  · simp only [out, BlockLookups.searchBlockWith, hflag1, if_pos]
    refine ⟨?_, ?_, ?_, ?_, ?_, ?_, ?_, ?_⟩ <;>
      first
        | exact anyUpdate_length _ _
        | exact anyUpdate_map _ _ _ (fun e => hroots e)
        | trivial
  · by_cases hflag2 : (anyUpdate (fun pl =>
        let r := pl.addPeerIfUseful hash ps
        (r.1 || r.2.containsBlock hash, r.2)) st.parent_lookups).1 = true
    · simp only [out, BlockLookups.searchBlockWith, hflag1, Bool.false_eq_true, if_neg,
        hflag2, if_pos]
      refine ⟨?_, ?_, ?_, ?_, ?_, ?_, ?_, ?_⟩ <;>
        first
          | exact anyUpdate_length _ _
          | exact anyUpdate_map _ ParentLookup.chain_hash _ (fun pl => hchain pl)
          | trivial
    · have hflag3 : st.processing_parent_lookups.any (fun e => e.2.1.contains hash) = true := by
        rcases h with hsingle | hparent | hproc
        · exact absurd (singles_flag_of_tracked st hash ps hsingle) hflag1
        · exact absurd (parents_flag_of_tracked st hash ps hparent) hflag2
        · rcases hproc with ⟨e, he, hc⟩
          exact List.any_eq_true.mpr ⟨e, he, hc⟩
      simp only [out, BlockLookups.searchBlockWith, hflag1, Bool.false_eq_true, if_neg,
        hflag2, hflag3, if_pos]
      refine ⟨?_, ?_, ?_, ?_, ?_, ?_, ?_, ?_⟩ <;> trivial

/-- C1 witness: a state tracking root 7 through a single lookup is left untouched by a
further search for 7. -/
theorem searchBlockWith_tracked_noop_witness :
    let lk : SingleBlockLookup := SingleBlockLookup.new 7 (.gossipSource 1)
    let st : BlockLookups :=
      { parent_lookups := []
        processing_parent_lookups := []
        failed_chains := []
        single_block_lookups := [(some 0, some 1, lk)] }
    let cx : SyncNetworkContext :=
      { next_id := 2, sent_requests := [], reports := [], processor_enabled := true
        processor_capacity := 4, processor_events := [] }
    let out := st.searchBlockWith id 7 (.attestationSource 5) cx
    out.1.single_block_lookups.length = st.single_block_lookups.length
    ∧ out.1.single_block_lookups.map entryRoot = st.single_block_lookups.map entryRoot
    ∧ out.1.parent_lookups.length = st.parent_lookups.length
    ∧ out.1.parent_lookups.map ParentLookup.chain_hash = st.parent_lookups.map ParentLookup.chain_hash
    ∧ out.1.processing_parent_lookups = st.processing_parent_lookups
    ∧ out.1.failed_chains = st.failed_chains
    ∧ out.2.sent_requests = cx.sent_requests
    ∧ out.2.next_id = cx.next_id := by
  exact searchBlockWith_tracked_noop _ _ _ _ _
    (Or.inl ⟨_, List.mem_singleton.mpr rfl, rfl⟩)

/-- Wire-level RPC errors delivered to the failure handlers; protocol.rs is not under
src/, so only the variants the embedded code inspects are modelled. -/
inductive RPCError
  | disconnected
  | streamTimeout
  | internalError
deriving DecidableEq, Repr

/-- Mirrors BlockLookups::handle_response: a failed parent request is dispatched on the
request error; ChainTooLong inserts the chain hash into the failed-chains cache and
reports every used peer of the failing response type, TooManyAttempts inserts the hash
only when the chain could not be processed and reports the used peers, SendFailed and
NoPeers drop the lookup silently; on success the lookup is pushed back. -/
def BlockLookups.handleResponse (st : BlockLookups) (pl : ParentLookup)
    (cx : SyncNetworkContext) (result : Except RequestError Unit) (rt : ResponseType) :
    BlockLookups × SyncNetworkContext :=
  match result with
  | .error e =>
    match e with
    | .sendFailed => (st, cx)
    | .chainTooLong =>
      ({ st with failed_chains := st.failed_chains ++ [pl.chain_hash] },
       (pl.usedPeers rt).foldl
         (fun c p => c.reportPeer p .lowToleranceError RequestError.chainTooLong.asStatic) cx)
    | .tooManyAttempts cannotProcess =>
      ((if cannotProcess then { st with failed_chains := st.failed_chains ++ [pl.chain_hash] }
        else st),
       (pl.usedPeers rt).foldl
         (fun c p =>
           c.reportPeer p .lowToleranceError (RequestError.tooManyAttempts cannotProcess).asStatic)
         cx)
    | .noPeers => (st, cx)
  | .ok _ => ({ st with parent_lookups := st.parent_lookups ++ [pl] }, cx)

/-- Mirrors BlockLookups::request_parent_block. -/
def BlockLookups.requestParentBlock (st : BlockLookups) (pl : ParentLookup)
    (cx : SyncNetworkContext) : BlockLookups × SyncNetworkContext :=
  let r := pl.requestParentBlock cx
  st.handleResponse r.2.1 r.2.2 r.1 .block

/-- Mirrors BlockLookups::request_parent_blob. -/
def BlockLookups.requestParentBlob (st : BlockLookups) (pl : ParentLookup)
    (cx : SyncNetworkContext) : BlockLookups × SyncNetworkContext :=
  let r := pl.requestParentBlobs cx
  st.handleResponse r.2.1 r.2.2 r.1 .blob

/-- Mirrors BlockLookups::request_parent_block_and_blobs: the blob request is attempted
only when the block request succeeded. -/
def BlockLookups.requestParentBlockAndBlobs (st : BlockLookups) (pl : ParentLookup)
    (cx : SyncNetworkContext) : BlockLookups × SyncNetworkContext :=
  let r := pl.requestParentBlock cx
  match r.1 with
  | .ok _ =>
    let r2 := r.2.1.requestParentBlobs r.2.2
    st.handleResponse r2.2.1 r2.2.2 r2.1 .blob
  | .error e => st.handleResponse r.2.1 r.2.2 (.error e) .block

/-- Mirrors BlockLookups::search_parent: roots on a known failed chain are dropped, a
chain already covering the block merges the peer, a processing chain containing the
block or its parent is left alone, and only then is a new ParentLookup created and its
parent requested. -/
def BlockLookups.searchParent (st : BlockLookups) (blockRoot parentRoot : Hash256)
    (peer : PeerId) (cx : SyncNetworkContext) : BlockLookups × SyncNetworkContext :=
  let peerSource := PeerSource.attestationSource peer
  if st.failed_chains.contains parentRoot || st.failed_chains.contains blockRoot then (st, cx)
  else
    let parents := anyUpdate (fun pl =>
      let r := pl.addPeerIfUseful blockRoot peerSource
      (pl.containsBlock blockRoot || r.1, r.2)) st.parent_lookups
    if parents.1 then ({ st with parent_lookups := parents.2 }, cx)
    else
      if st.processing_parent_lookups.any
          (fun e => e.2.1.contains blockRoot || e.2.1.contains parentRoot) then (st, cx)
      else
        let pl := ParentLookup.new blockRoot parentRoot peerSource
        st.requestParentBlockAndBlobs pl cx

theorem foldl_reportPeer (peers : List PeerId) (cx : SyncNetworkContext) (a : PeerAction)
    (r : ReportReason) :
    (peers.foldl (fun c p => c.reportPeer p a r) cx).reports =
      cx.reports ++ peers.map (fun p => (p, a, r)) := by
  induction peers generalizing cx with
  | nil => simp
  | cons p ps ih =>
    rw [List.foldl_cons, ih]
    simp [SyncNetworkContext.reportPeer]

/-- C2: when requesting the next parent fails with ChainTooLong, the chain hash enters
the failed-chains cache, the lookup is not re-added to the parent lookups, and every
used peer for the failing response type is reported with a low-tolerance error. -/
theorem handleResponse_chainTooLong (st : BlockLookups) (pl : ParentLookup)
    (cx : SyncNetworkContext) (rt : ResponseType) :
    let out := st.handleResponse pl cx (.error .chainTooLong) rt
    pl.chain_hash ∈ out.1.failed_chains
    ∧ out.1.parent_lookups = st.parent_lookups
    ∧ out.2.reports = cx.reports ++ (pl.usedPeers rt).map
        (fun p => (p, PeerAction.lowToleranceError, ReportReason.chainTooLongMsg)) := by
  refine ⟨?_, rfl, ?_⟩
  · simp [BlockLookups.handleResponse]
  · simpa [BlockLookups.handleResponse, RequestError.asStatic] using
      foldl_reportPeer (pl.usedPeers rt) cx .lowToleranceError .chainTooLongMsg

/-- Mirrors the retry_request_after_failure helper: re-issues the request of the given
response type and reports whether the lookup should be dropped; the network send is
modelled as always succeeding, so the drop case corresponds to a request-state error. -/
def retryRequestAfterFailure (requestId : Id) (req : SingleBlockLookup) (rt : ResponseType)
    (cx : SyncNetworkContext) :
    ShouldRemoveLookup × Id × SingleBlockLookup × SyncNetworkContext :=
  match rt with
  | .block =>
    match req.requestBlock with
    | .ok (some (peer, root), req1) =>
      let sent := cx.singleBlockLookupRequest peer root
      (.no, sent.1, req1, sent.2)
    | .ok (none, req1) => (.no, requestId, req1, cx)
    | .error _ => (.yes, requestId, req, cx)
  | .blob =>
    match req.requestBlobs with
    | .ok (some (peer, root), req1) =>
      let sent := cx.singleBlobsLookupRequest peer root
      (.no, sent.1, req1, sent.2)
    | .ok (none, req1) => (.no, requestId, req1, cx)
    | .error _ => (.yes, requestId, req, cx)

/-- Processes one single-lookup entry for BlockLookups::single_block_lookup_failed:
the block half registers a download failure and retries as a block request; the blob
half registers a blob download failure but, exactly as the source does, passes
ResponseType::Block to the retry helper. Returns whether the entry is kept. -/
def singleLookupFailedStep (id : Id)
    (e : Option Id × Option Id × SingleBlockLookup) (cx : SyncNetworkContext) :
    Bool × (Option Id × Option Id × SingleBlockLookup) × SyncNetworkContext :=
  let blockHalf :
      ShouldRemoveLookup × Option Id × SingleBlockLookup × SyncNetworkContext :=
    match e.1 with
    | some bid =>
      if bid = id then
        let req1 :=
          { e.2.2 with block_request_state := e.2.2.block_request_state.registerFailureDownloading }
        let r := retryRequestAfterFailure bid req1 .block cx
        (r.1, some r.2.1, r.2.2)
      else (.no, e.1, e.2.2, cx)
    | none => (.no, e.1, e.2.2, cx)
  let blobHalf :
      ShouldRemoveLookup × Option Id × SingleBlockLookup × SyncNetworkContext :=
    match e.2.1 with
    | some lid =>
      if lid = id then
        let req2 :=
          { blockHalf.2.2.1 with
              blob_request_state := blockHalf.2.2.1.blob_request_state.registerFailureDownloading }
        let r := retryRequestAfterFailure lid req2 .block blockHalf.2.2.2
        (r.1, some r.2.1, r.2.2)
      else (.no, e.2.1, blockHalf.2.2.1, blockHalf.2.2.2)
    | none => (.no, e.2.1, blockHalf.2.2.1, blockHalf.2.2.2)
  (blockHalf.1 = ShouldRemoveLookup.no && blobHalf.1 = ShouldRemoveLookup.no,
   (blockHalf.2.1, blobHalf.2.1, blobHalf.2.2.1), blobHalf.2.2.2)

/-- Mirrors BlockLookups::single_block_lookup_failed: retain_mut over the single
lookups, processing each entry with singleLookupFailedStep. -/
def BlockLookups.singleBlockLookupFailed (st : BlockLookups) (id : Id) (_peer : PeerId)
    (cx : SyncNetworkContext) (_error : RPCError) : BlockLookups × SyncNetworkContext :=
  let folded := st.single_block_lookups.foldl
    (fun acc e =>
      let r := singleLookupFailedStep id e acc.2
      (if r.1 then acc.1 ++ [r.2.1] else acc.1, r.2.2))
    (([] : List (Option Id × Option Id × SingleBlockLookup)), cx)
  ({ st with single_block_lookups := folded.1 }, folded.2)

/-- Removes the first element satisfying the predicate, returning it and the remaining
list, as Rust position followed by remove does. -/
def extractFirst (p : α → Bool) : List α → Option (α × List α)
  | [] => none
  | x :: xs =>
    if p x then some (x, xs)
    else
      match extractFirst p xs with
      | none => none
      | some (y, ys) => some (y, x :: ys)

/-- Mirrors BlockLookups::parent_lookup_failed: the function first looks for a parent
lookup with a pending block response for the id and, exactly as the source does,
returns early when none matches, so the blob half is only examined after a successful
block match. -/
def BlockLookups.parentLookupFailed (st : BlockLookups) (id : Id) (_peer : PeerId)
    (cx : SyncNetworkContext) (_error : RPCError) : BlockLookups × SyncNetworkContext :=
  match extractFirst (fun pl => pl.pendingBlockResponse id) st.parent_lookups with
  | some (pl, rest) =>
    let st1 := { st with parent_lookups := rest }
    let out1 := st1.requestParentBlock pl.blockDownloadFailed cx
    (match extractFirst (fun pl2 => pl2.pendingBlobResponse id) out1.1.parent_lookups with
     | some (pl2, rest2) =>
       let st2 := { out1.1 with parent_lookups := rest2 }
       st2.requestParentBlob pl2.blobDownloadFailed out1.2
     | none => out1)
  | none => (st, cx)

/-- C7: evaluation at the failing inputs. A wire failure whose id matches only the blob
half of a parent lookup is dropped unhandled (the state and context are returned
unchanged, with no failure-counter increment and no retry), because
parent_lookup_failed returns early when the id is not a pending block response; and a
wire failure on the blob half of a single lookup increments the blob failure counter
but then issues a block request (not a blob request), because
single_block_lookup_failed passes ResponseType::Block to the retry helper. -/
theorem lookupFailed_blob_half_divergence :
    let plP : ParentLookup :=
      { chain_hash := 10
        downloaded_block_roots := []
        current_parent_root := 11
        current_parent_request := SingleBlockLookup.new 11 (.gossipSource 3)
        block_request_id := some 3
        blob_request_id := some 7 }
    let stP : BlockLookups :=
      { parent_lookups := [plP], processing_parent_lookups := [], failed_chains := []
        single_block_lookups := [] }
    let cx0 : SyncNetworkContext :=
      { next_id := 0, sent_requests := [], reports := [], processor_enabled := true
        processor_capacity := 4, processor_events := [] }
    let stS : BlockLookups :=
      { parent_lookups := [], processing_parent_lookups := [], failed_chains := []
        single_block_lookups := [(some 1, some 2, SingleBlockLookup.new 55 (.gossipSource 9))] }
    BlockLookups.parentLookupFailed stP 7 9 cx0 .streamTimeout = (stP, cx0)
    ∧ (BlockLookups.singleBlockLookupFailed stS 2 9 cx0 .streamTimeout).2.sent_requests =
        [(0, LookupRequest.blockRequest 9 55)]
    ∧ (BlockLookups.singleBlockLookupFailed stS 2 9 cx0 .streamTimeout).1.single_block_lookups.map
        (fun e => e.2.2.blob_request_state.failed_downloading) = [1] := by
  refine ⟨?_, ?_, ?_⟩ <;> rfl

/-- LookupVerifyError from single_block_lookup.rs (absent from src/), as matched by the
response handlers in block_lookups/mod.rs. -/
inductive LookupVerifyError
  | rootMismatch
  | noBlockReturned
  | extraBlocksReturned
  | unrequestedBlobId
  | extraBlobsReturned
  | invalidIndex
  | duplicateData
deriving DecidableEq, Repr

/-- Modelled from the spec: single_block_lookup.rs is not under src/. Verifying a block
response: while downloading, a payload whose root matches the requested root completes
the download, a mismatching root registers a download failure; data arriving outside a
download is an extra-blocks error and a bare stream terminator is accepted. -/
def SingleBlockLookup.verifyBlock (req : SingleBlockLookup) (blk : Option BeaconBlock) :
    Except LookupVerifyError (Option (Hash256 × BeaconBlock)) × SingleBlockLookup :=
  match req.block_request_state.state with
  | .downloading _ =>
    match blk with
    | some b =>
      if b.root = req.requested_block_root then
        (.ok (some (b.root, b)),
         { req with block_request_state := { req.block_request_state with state := .downloaded } })
      else
        (.error .rootMismatch,
         { req with block_request_state := req.block_request_state.registerFailureDownloading })
    | none =>
      (.error .noBlockReturned,
       { req with block_request_state := req.block_request_state.registerFailureDownloading })
  | _ =>
    match blk with
    | some _ => (.error .extraBlocksReturned, req)
    | none => (.ok none, req)

/-- Modelled from the spec: single_block_lookup.rs is not under src/. Verifying a blob
response, symmetric to verifyBlock; a blob for a different root is an unrequested-blob
error. -/
def SingleBlockLookup.verifyBlob (req : SingleBlockLookup) (blob : Option BlobSidecar) :
    Except LookupVerifyError (Option (Hash256 × BlobSidecar)) × SingleBlockLookup :=
  match req.blob_request_state.state with
  | .downloading _ =>
    match blob with
    | some b =>
      if b.block_root = req.requested_block_root then
        (.ok (some (b.block_root, b)),
         { req with blob_request_state := { req.blob_request_state with state := .downloaded } })
      else
        (.error .unrequestedBlobId,
         { req with blob_request_state := req.blob_request_state.registerFailureDownloading })
    | none =>
      (.error .noBlockReturned,
       { req with blob_request_state := req.blob_request_state.registerFailureDownloading })
  | _ =>
    match blob with
    | some _ => (.error .extraBlobsReturned, req)
    | none => (.ok none, req)

/-- Modelled from the spec: single_block_lookup.rs is not under src/. Caches a verified
block in the lookup while a triggered parent chain completes; a second block for the
same lookup is duplicate data. -/
def SingleBlockLookup.addBlock (req : SingleBlockLookup) (_root : Hash256) (b : BeaconBlock) :
    Except LookupVerifyError SingleBlockLookup :=
  match req.downloaded_block with
  | some _ => .error .duplicateData
  | none => .ok { req with downloaded_block := some b }

/-- Modelled from the spec: single_block_lookup.rs is not under src/. Caches verified
blobs in the lookup while a triggered parent chain completes. -/
def SingleBlockLookup.addBlobs (req : SingleBlockLookup) (_root : Hash256) (b : BlobSidecar) :
    Except LookupVerifyError SingleBlockLookup :=
  .ok { req with downloaded_blobs := req.downloaded_blobs ++ [b] }

/-- Mirrors BlockLookups::send_block_for_processing: succeeds only when the processor
channel is enabled and try_send finds capacity. -/
def sendBlockForProcessing (cx : SyncNetworkContext) (root : Hash256)
    (pt : BlockProcessType) : Except Unit Unit × SyncNetworkContext :=
  if cx.processor_enabled then
    if 0 < cx.processor_capacity then
      (.ok (),
       { cx with
          processor_capacity := cx.processor_capacity - 1
          processor_events := cx.processor_events ++ [.rpcBeaconBlock root pt] })
    else (.error (), cx)
  else (.error (), cx)

/-- Mirrors BlockLookups::send_blobs_for_processing. -/
def sendBlobsForProcessing (cx : SyncNetworkContext) (root : Hash256)
    (pt : BlockProcessType) : Except Unit Unit × SyncNetworkContext :=
  if cx.processor_enabled then
    if 0 < cx.processor_capacity then
      (.ok (),
       { cx with
          processor_capacity := cx.processor_capacity - 1
          processor_events := cx.processor_events ++ [.rpcBlobs root pt] })
    else (.error (), cx)
  else (.error (), cx)

/-- Mirrors the handle_block_lookup_verify_error helper: the peer is reported with a
low-tolerance error and the request is retried. -/
def handleBlockLookupVerifyError (requestId : Id) (req : SingleBlockLookup)
    (rt : ResponseType) (peer : PeerId) (_e : LookupVerifyError) (cx : SyncNetworkContext) :
    ShouldRemoveLookup × Id × SingleBlockLookup × SyncNetworkContext :=
  let cx1 := cx.reportPeer peer .lowToleranceError .singleBlockFailure
  retryRequestAfterFailure requestId req rt cx1

/-- Finds the first element satisfying the predicate together with its index. -/
def findIdxEntry (p : α → Bool) : List α → Option (Nat × α)
  | [] => none
  | x :: xs =>
    if p x then some (0, x)
    else (findIdxEntry p xs).map (fun r => (r.1 + 1, r.2))

/-- Mirrors BlockLookups::single_block_lookup_response: the owning lookup is located by
block request id (mirroring find_single_lookup_request, including the
triggered-parent-request check); a verified block is cached when a parent chain was
triggered by this lookup and sent for processing otherwise; verification failures
report the peer and retry; the entry is dropped when processing cannot be reached or
the retry budget is exhausted. The not-found case returns with no state change. -/
def BlockLookups.singleBlockLookupResponse (st : BlockLookups) (id : Id) (peer : PeerId)
    (block : Option BeaconBlock) (cx : SyncNetworkContext) :
    BlockLookups × SyncNetworkContext :=
  match findIdxEntry (fun e => e.1 = some id) st.single_block_lookups with
  | none => (st, cx)
  | some (idx, e) =>
    let trig := st.parent_lookups.any (fun pl => pl.chain_hash = entryRoot e)
    let step : ShouldRemoveLookup × (Option Id × Option Id × SingleBlockLookup) ×
        SyncNetworkContext :=
      match e.2.2.verifyBlock block with
      | (.ok (some (root, b)), req1) =>
        if trig then
          match req1.addBlock root b with
          | .error e2 =>
            let h := handleBlockLookupVerifyError id req1 .block peer e2 cx
            (h.1, (some h.2.1, e.2.1, h.2.2.1), h.2.2.2)
          | .ok req2 => (.no, (e.1, e.2.1, req2), cx)
        else
          match sendBlockForProcessing cx root (.singleBlock id) with
          | (.ok _, cx1) => (.no, (e.1, e.2.1, req1), cx1)
          | (.error _, cx1) => (.yes, (e.1, e.2.1, req1), cx1)
      | (.ok none, req1) => (.no, (e.1, e.2.1, req1), cx)
      | (.error e2, req1) =>
        let h := handleBlockLookupVerifyError id req1 .block peer e2 cx
        (h.1, (some h.2.1, e.2.1, h.2.2.1), h.2.2.2)
    let updated := st.single_block_lookups.set idx step.2.1
    (if step.1 = ShouldRemoveLookup.yes then
       { st with single_block_lookups := updated.filter (fun e2 => !(e2.1 == some id)) }
     else { st with single_block_lookups := updated },
     step.2.2)

/-- Mirrors BlockLookups::single_blob_lookup_response, the blob counterpart. -/
def BlockLookups.singleBlobLookupResponse (st : BlockLookups) (id : Id) (peer : PeerId)
    (blob : Option BlobSidecar) (cx : SyncNetworkContext) :
    BlockLookups × SyncNetworkContext :=
  match findIdxEntry (fun e => e.2.1 = some id) st.single_block_lookups with
  | none => (st, cx)
  | some (idx, e) =>
    let trig := st.parent_lookups.any (fun pl => pl.chain_hash = entryRoot e)
    let step : ShouldRemoveLookup × (Option Id × Option Id × SingleBlockLookup) ×
        SyncNetworkContext :=
      match e.2.2.verifyBlob blob with
      | (.ok (some (root, b)), req1) =>
        if trig then
          match req1.addBlobs root b with
          | .error e2 =>
            let h := handleBlockLookupVerifyError id req1 .blob peer e2 cx
            (h.1, (e.1, some h.2.1, h.2.2.1), h.2.2.2)
          | .ok req2 => (.no, (e.1, e.2.1, req2), cx)
        else
          match sendBlobsForProcessing cx root (.singleBlock id) with
          | (.ok _, cx1) => (.no, (e.1, e.2.1, req1), cx1)
          | (.error _, cx1) => (.yes, (e.1, e.2.1, req1), cx1)
      | (.ok none, req1) => (.no, (e.1, e.2.1, req1), cx)
      | (.error e2, req1) =>
        let h := handleBlockLookupVerifyError id req1 .blob peer e2 cx
        (h.1, (e.1, some h.2.1, h.2.2.1), h.2.2.2)
    let updated := st.single_block_lookups.set idx step.2.1
    (if step.1 = ShouldRemoveLookup.yes then
       { st with single_block_lookups := updated.filter (fun e2 => !(e2.2.1 == some id)) }
     else { st with single_block_lookups := updated },
     step.2.2)

/-- ParentVerifyError from parent_lookup.rs (absent from src/), as matched by the parent
response handlers in block_lookups/mod.rs. -/
inductive ParentVerifyError
  | rootMismatch
  | noBlockReturned
  | extraBlocksReturned
  | unrequestedBlobId
  | extraBlobsReturned
  | invalidIndex
  | availabilityCheck
  | previousFailure (parent_root : Hash256)
deriving DecidableEq, Repr

/-- LookupDownloadStatus from parent_lookup.rs (absent from src/): after folding a
response into the chain, either the current parent is complete and ready for
processing, or its remaining components must be searched for. -/
inductive LookupDownloadStatus
  | process (root : Hash256)
  | searchBlock (root : Hash256)
deriving DecidableEq, Repr

/-- Modelled from the spec: parent_lookup.rs is not under src/. Verifying a parent block
response: the root must match the parent currently being fetched, and a block whose own
parent is on a known failed chain is rejected as a previous failure. -/
def ParentLookup.verifyBlock (pl : ParentLookup) (blk : Option BeaconBlock)
    (failedChains : List Hash256) :
    Except ParentVerifyError (Option (Hash256 × BeaconBlock)) × ParentLookup :=
  match pl.current_parent_request.block_request_state.state with
  | .downloading _ =>
    match blk with
    | some b =>
      if b.root = pl.current_parent_request.requested_block_root then
        if failedChains.contains b.parent_root then
          (.error (.previousFailure b.parent_root), pl)
        else
          (.ok (some (b.root, b)),
           { pl with
              current_parent_request :=
                { pl.current_parent_request with
                    block_request_state :=
                      { pl.current_parent_request.block_request_state with
                          state := .downloaded } } })
      else (.error .rootMismatch, pl.blockDownloadFailed)
    | none => (.error .noBlockReturned, pl.blockDownloadFailed)
  | _ =>
    match blk with
    | some _ => (.error .extraBlocksReturned, pl)
    | none => (.ok none, pl)

/-- Modelled from the spec: parent_lookup.rs is not under src/. Folding a verified
parent block into the chain: the root joins the downloaded chain and the search moves
one link backwards; the parent is processed at once when its blobs are already
downloaded and otherwise its remaining components are searched for. -/
def ParentLookup.addBlock (pl : ParentLookup) (root : Hash256) (b : BeaconBlock) :
    LookupDownloadStatus × ParentLookup :=
  let pl1 :=
    { pl with
        downloaded_block_roots := pl.downloaded_block_roots ++ [root]
        current_parent_root := b.parent_root }
  match pl.current_parent_request.blob_request_state.state with
  | .downloaded => (.process root, pl1)
  | _ => (.searchBlock root, pl1)

/-- Modelled from the spec: parent_lookup.rs is not under src/. The peer source of a
responding peer, when it is tracked among the used peers of the response type. -/
def ParentLookup.peerSource (pl : ParentLookup) (rt : ResponseType) (peer : PeerId) :
    Option PeerSource :=
  if (pl.usedPeers rt).contains peer then some (.gossipSource peer) else none

/-- Mirrors BlockLookups::parent_lookup_response: the owning parent lookup is removed by
pending block-response id (the not-found case returns with no state change); a verified
parent is folded into the chain and either sent for processing or searched further;
protocol-violation verify errors report the peer with a low-tolerance error and retry
the parent block request; a previous-failure verdict inserts the chain hash into the
failed-chains cache and reports the peer with a mid-tolerance error. -/
def BlockLookups.parentLookupResponse (st : BlockLookups) (id : Id) (peer : PeerId)
    (block : Option BeaconBlock) (cx : SyncNetworkContext) :
    BlockLookups × SyncNetworkContext :=
  match extractFirst (fun pl => pl.pendingBlockResponse id) st.parent_lookups with
  | none => (st, cx)
  | some (pl, rest) =>
    let st0 := { st with parent_lookups := rest }
    match pl.verifyBlock block st0.failed_chains with
    | (.ok (some (root, b)), pl1) =>
      match pl1.addBlock root b with
      | (.process _, pl2) =>
        match sendBlockForProcessing cx root (.parentLookupType pl2.chain_hash) with
        | (.ok _, cx1) =>
          ({ st0 with parent_lookups := st0.parent_lookups ++ [pl2] }, cx1)
        | (.error _, cx1) => (st0, cx1)
      | (.searchBlock sroot, pl2) =>
        match pl2.peerSource .block peer with
        | some ps =>
          let out := st0.searchBlock sroot ps cx
          ({ out.1 with parent_lookups := out.1.parent_lookups ++ [pl2] }, out.2)
        | none => (st0, cx)
    | (.ok none, pl1) =>
      ({ st0 with parent_lookups := st0.parent_lookups ++ [pl1] }, cx)
    | (.error e, pl1) =>
      match e with
      | .previousFailure _ =>
        ({ st0 with failed_chains := st0.failed_chains ++ [pl1.chain_hash] },
         cx.reportPeer peer .midToleranceError .bbrootFailedChains)
      | _ =>
        let cx1 := cx.reportPeer peer .lowToleranceError .invalidParentResponse
        st0.requestParentBlock pl1 cx1

theorem findIdxEntry_eq_none {p : α → Bool} {l : List α}
    (h : ∀ x ∈ l, p x = false) : findIdxEntry p l = none := by
  induction l with
  | nil => rfl
  | cons x xs ih =>
    have hx := h x (List.mem_cons_self x xs)
    simp only [findIdxEntry, hx, Bool.false_eq_true, if_neg, if_false]
    rw [ih (fun y hy => h y (List.mem_cons_of_mem x hy))]
    rfl

theorem extractFirst_eq_none {p : α → Bool} {l : List α}
    (h : ∀ x ∈ l, p x = false) : extractFirst p l = none := by
  induction l with
  | nil => rfl
  | cons x xs ih =>
    have hx := h x (List.mem_cons_self x xs)
    simp only [extractFirst, hx, Bool.false_eq_true, if_neg, if_false]
    rw [ih (fun y hy => h y (List.mem_cons_of_mem x hy))]

/-- C9: a wire response whose id matches no tracked lookup leaves the lookup
collections and the network context unchanged, for the single block, single blob and
parent block response handlers alike. -/
theorem responses_unknown_id_noop (st : BlockLookups) (cx : SyncNetworkContext) (id : Id)
    (peer : PeerId) (block : Option BeaconBlock) (blob : Option BlobSidecar)
    (hblock : ∀ e ∈ st.single_block_lookups, e.1 ≠ some id)
    (hblob : ∀ e ∈ st.single_block_lookups, e.2.1 ≠ some id)
    (hparent : ∀ pl ∈ st.parent_lookups, pl.pendingBlockResponse id = false) :
    st.singleBlockLookupResponse id peer block cx = (st, cx)
    ∧ st.singleBlobLookupResponse id peer blob cx = (st, cx)
    ∧ st.parentLookupResponse id peer block cx = (st, cx) := by
  refine ⟨?_, ?_, ?_⟩
  · have hfind : findIdxEntry (fun e => e.1 = some id) st.single_block_lookups = none := by
      refine findIdxEntry_eq_none (fun e he => ?_)
      simpa using hblock e he
    simp [BlockLookups.singleBlockLookupResponse, hfind]
  · have hfind : findIdxEntry (fun e => e.2.1 = some id) st.single_block_lookups = none := by
      refine findIdxEntry_eq_none (fun e he => ?_)
      simpa using hblob e he
    simp [BlockLookups.singleBlobLookupResponse, hfind]
  · have hfind : extractFirst (fun pl => pl.pendingBlockResponse id) st.parent_lookups = none :=
      extractFirst_eq_none hparent
    simp [BlockLookups.parentLookupResponse, hfind]

/-- C9 witness: a state with one single lookup under ids 1 and 2 and one parent lookup
pending id 3 ignores a stray response for id 6. -/
theorem responses_unknown_id_noop_witness :
    let lk : SingleBlockLookup := SingleBlockLookup.new 55 (.gossipSource 9)
    let pl : ParentLookup :=
      { chain_hash := 10, downloaded_block_roots := [], current_parent_root := 11
        current_parent_request := SingleBlockLookup.new 11 (.gossipSource 3)
        block_request_id := some 3, blob_request_id := some 4 }
    let st : BlockLookups :=
      { parent_lookups := [pl], processing_parent_lookups := [], failed_chains := []
        single_block_lookups := [(some 1, some 2, lk)] }
    let cx : SyncNetworkContext :=
      { next_id := 5, sent_requests := [], reports := [], processor_enabled := true
        processor_capacity := 4, processor_events := [] }
    st.singleBlockLookupResponse 6 9 none cx = (st, cx)
    ∧ st.singleBlobLookupResponse 6 9 none cx = (st, cx)
    ∧ st.parentLookupResponse 6 9 none cx = (st, cx) := by
  exact responses_unknown_id_noop _ _ _ _ _ _
    (by decide) (by decide) (by decide)

/-- RPC protocols from protocol.rs, as matched by is_request_size_too_large. -/
inductive Protocol
  | statusProtocol
  | goodbye
  | ping
  | metaData
  | blocksByRange
  | blocksByRoot
  | blobsByRange
  | blobsByRoot
  | dataColumnsByRoot
  | dataColumnsByRange
  | lightClientBootstrap
  | lightClientOptimisticUpdate
  | lightClientFinalityUpdate
deriving DecidableEq, Repr

/-- An inbound RPC request, reduced to the protocol and its maximum response count. -/
structure InboundRequest where
  protocol : Protocol
  max_responses : Nat
deriving DecidableEq, Repr

/-- An outbound RPC request, reduced to its protocol. -/
structure OutboundRequest where
  protocol : Protocol
deriving DecidableEq, Repr

/-- RPCResponseErrorCode variants the embedded code emits. -/
inductive RPCResponseErrorCode
  | rateLimited
  | invalidRequest
deriving DecidableEq, Repr

/-- The constant error-message strings of rpc/mod.rs, modelled as an enumeration. -/
inductive ErrMsg
  | activeRequestSameProtocol
  | requestTooLarge
deriving DecidableEq, Repr

/-- An RPC coded response: a success chunk or an error response. -/
inductive RPCCodedResponse
  | success (protocol : Protocol) (payload : Nat)
  | errorResponse (code : RPCResponseErrorCode) (msg : ErrMsg) (protocol : Protocol)
deriving DecidableEq, Repr

/-- Mirrors RPCCodedResponse::protocol. -/
def RPCCodedResponse.protocol : RPCCodedResponse → Protocol
  | .success p _ => p
  | .errorResponse _ _ p => p

/-- RPCSend from rpc/mod.rs. -/
inductive RPCSend
  | request (id : Id) (req : OutboundRequest)
  | response (substream_id : Nat) (resp : RPCCodedResponse)
  | shutdownSend (id : Id)
deriving DecidableEq, Repr

/-- RPCReceived from rpc/mod.rs. -/
inductive RPCReceived
  | request (substream_id : Nat) (req : InboundRequest)
  | response (id : Id) (resp : RPCCodedResponse)
  | endOfStream (id : Id)
deriving DecidableEq, Repr

/-- HandlerErr from handler.rs, reduced to the fields the behaviour inspects. -/
inductive HandlerErr
  | outbound (id : Id) (proto : Protocol) (error : RPCError)
  | inbound (id : Id) (proto : Protocol) (error : RPCError)
deriving DecidableEq, Repr

/-- HandlerEvent from handler.rs. -/
inductive HandlerEvent
  | okEvent (received : RPCReceived)
  | errEvent (err : HandlerErr)
  | closeEvent
deriving DecidableEq, Repr

/-- RPCMessage from rpc/mod.rs. -/
structure RPCMessage where
  peer_id : PeerId
  conn_id : Nat
  event : HandlerEvent
deriving DecidableEq, Repr

/-- The ToSwarm behaviour actions the RPC behaviour produces. -/
inductive BehaviourAction
  | generateEvent (msg : RPCMessage)
  | notifyHandler (peer_id : PeerId) (conn_id : Nat) (event : RPCSend)
  | closeConnection (peer_id : PeerId)
deriving DecidableEq, Repr

/-- A rate limiter configuration, reduced to its per-protocol quotas. -/
structure RateLimiterConfig where
  quotas : List (Protocol × Nat × Nat)
deriving DecidableEq, Repr

/-- RateLimitedErr from rate_limiter.rs (absent from src/), as matched by
try_response_limiter. -/
inductive RateLimitedErr
  | tooLarge
  | tooSoon (wait : Nat)
deriving DecidableEq, Repr

/-- An entry of the delayed-responses queue: a queued response with the instant at
which it is scheduled to fire; the key makes entries distinguishable, as DelayQueue
keys do. -/
structure DelayedEntry where
  key : Nat
  peer_id : PeerId
  connection_id : Nat
  substream_id : Nat
  response : RPCCodedResponse
  deadline : Nat
deriving DecidableEq, Repr

/-- The RPC behaviour state from rpc/mod.rs: the optional limiter configurations, the
event queue, the active inbound requests tracked by the active-requests limiter, the
delayed-responses queue with its key counter, the requests pending in the self rate
limiter, and the spec limits consulted by is_request_size_too_large. -/
structure RPCState where
  response_limiter : Option RateLimiterConfig
  outbound_request_limiter : Option RateLimiterConfig
  response_limiter_new : RateLimiterConfig
  events : List BehaviourAction
  active_inbound_requests : List (PeerId × Protocol × Nat × Nat)
  delayed_responses : List DelayedEntry
  next_delay_key : Nat
  self_limiter_pending : List (PeerId × Id × Protocol)
  max_request_blocks : Nat
  max_request_blob_sidecars : Nat
  max_request_data_column_sidecars : Nat
deriving DecidableEq, Repr

/-- Mirrors RPC::new: the optional response and self limiters are built from their
configs, and response_limiter_new is built by unconditionally unwrapping the inbound
config; the unwrap is modelled as an Option match, so the constructor yields none (a
panic in the source) whenever the inbound config is absent. -/
def rpcNew (inboundCfg outboundCfg : Option RateLimiterConfig)
    (maxBlocks maxBlobs maxCols : Nat) : Option RPCState :=
  match inboundCfg with
  | none => none
  | some cfg =>
    some
      { response_limiter := inboundCfg
        outbound_request_limiter := outboundCfg
        response_limiter_new := cfg
        events := []
        active_inbound_requests := []
        delayed_responses := []
        next_delay_key := 0
        self_limiter_pending := []
        max_request_blocks := maxBlocks
        max_request_blob_sidecars := maxBlobs
        max_request_data_column_sidecars := maxCols }

/-- C10: RPC::new unwraps the inbound rate-limiter configuration unconditionally, so
constructing the behaviour without one panics (modelled as none), while any present
configuration succeeds: inbound response rate limiting cannot be disabled here. -/
theorem rpcNew_requires_inbound_config (outboundCfg : Option RateLimiterConfig)
    (maxBlocks maxBlobs maxCols : Nat) :
    rpcNew none outboundCfg maxBlocks maxBlobs maxCols = none
    ∧ ∀ cfg, (rpcNew (some cfg) outboundCfg maxBlocks maxBlobs maxCols).isSome = true := by
  exact ⟨rfl, fun cfg => rfl⟩

/-- Number of active inbound requests for a peer and protocol. -/
def countActiveRequests (st : RPCState) (peer : PeerId) (proto : Protocol) : Nat :=
  st.active_inbound_requests.countP (fun e => e.1 == peer && e.2.1 == proto)

/-- Modelled from the spec: active_requests_limiter.rs is not under src/. Its field
comment in rpc/mod.rs restricts more than two requests from running simultaneously on
the same protocol per peer: a request arriving when two are already active for the
(peer, protocol) pair is rejected, otherwise it is recorded as active. -/
def RPCState.activeLimiterAllows (st : RPCState) (peer : PeerId) (proto : Protocol)
    (connId substreamId : Nat) : Bool × RPCState :=
  if 2 ≤ countActiveRequests st peer proto then (false, st)
  else
    (true,
     { st with
        active_inbound_requests :=
          st.active_inbound_requests ++ [(peer, proto, connId, substreamId)] })

/-- Modelled from the spec: active_requests_limiter.rs is not under src/. Completing a
request removes it from the active set. -/
def RPCState.activeLimiterRemove (st : RPCState) (peer : PeerId)
    (connId substreamId : Nat) : RPCState :=
  { st with
      active_inbound_requests :=
        st.active_inbound_requests.filter
          (fun e => !(e.1 == peer && e.2.2.1 == connId && e.2.2.2 == substreamId)) }

/-- Mirrors RPC::try_response_limiter, dispatching on the verdict of the response rate
limiter: an allowed response and a response too large to ever fit a full bucket (a
logged misconfiguration) both pass, while TooSoon yields the wait time. -/
def tryResponseLimiter (verdict : Except RateLimitedErr Unit) : Except Nat Unit :=
  match verdict with
  | .ok () => .ok ()
  | .error .tooLarge => .ok ()
  | .error (.tooSoon wait) => .error wait

/-- Mirrors RPC::send_response_inner: pushes the NotifyHandler response event. -/
def RPCState.sendResponseInner (st : RPCState) (peer : PeerId) (connId substreamId : Nat)
    (resp : RPCCodedResponse) : RPCState :=
  { st with events := st.events ++ [.notifyHandler peer connId (.response substreamId resp)] }

/-- Mirrors RPC::send_response: the request is removed from the active limiter, then
the response is sent immediately when the limiter passes and otherwise inserted into
the delayed-responses queue at the current instant plus the returned wait time. The
token-bucket decision function of rate_limiter.rs (absent from src/) is abstracted as
the allows argument. -/
def RPCState.sendResponse (st : RPCState)
    (allows : PeerId → RPCCodedResponse → Except RateLimitedErr Unit) (now : Nat)
    (peer : PeerId) (connId substreamId : Nat) (resp : RPCCodedResponse) : RPCState :=
  let st1 := st.activeLimiterRemove peer connId substreamId
  match tryResponseLimiter (allows peer resp) with
  | .ok _ => st1.sendResponseInner peer connId substreamId resp
  | .error wait =>
    { st1 with
        delayed_responses :=
          st1.delayed_responses ++
            [{ key := st1.next_delay_key, peer_id := peer, connection_id := connId
               substream_id := substreamId, response := resp, deadline := now + wait }]
        next_delay_key := st1.next_delay_key + 1 }

/-- Mirrors RPC::is_request_size_too_large. -/
def RPCState.isRequestSizeTooLarge (st : RPCState) (req : InboundRequest) : Bool :=
  match req.protocol with
  | .blocksByRange => st.max_request_blocks < req.max_responses
  | .blobsByRange => st.max_request_blob_sidecars < req.max_responses
  | .dataColumnsByRange => st.max_request_data_column_sidecars < req.max_responses
  | _ => false

/-- Mirrors RPC::on_connection_handler_event: inbound requests are checked against the
active-requests limiter (rejection answers with a RateLimited error response and never
reaches the event queue), then against the spec size limits (answering with
InvalidRequest), and only then forwarded to the application layer; a handler close
removes the peer from the active limiter and closes the connection; every other
handler event is forwarded. -/
def RPCState.onConnectionHandlerEvent (st : RPCState)
    (allows : PeerId → RPCCodedResponse → Except RateLimitedErr Unit) (now : Nat)
    (peer : PeerId) (connId : Nat) (event : HandlerEvent) : RPCState :=
  match event with
  | .okEvent (.request substreamId req) =>
    let allowed := st.activeLimiterAllows peer req.protocol connId substreamId
    if !allowed.1 then
      allowed.2.sendResponse allows now peer connId substreamId
        (.errorResponse .rateLimited .activeRequestSameProtocol req.protocol)
    else if allowed.2.isRequestSizeTooLarge req then
      allowed.2.sendResponse allows now peer connId substreamId
        (.errorResponse .invalidRequest .requestTooLarge req.protocol)
    else
      { allowed.2 with
          events := allowed.2.events ++ [.generateEvent ⟨peer, connId, event⟩] }
  | .closeEvent =>
    let st1 :=
      { st with
          active_inbound_requests :=
            st.active_inbound_requests.filter (fun e => !(e.1 == peer)) }
    { st1 with events := st1.events ++ [.closeConnection peer] }
  | _ => { st with events := st.events ++ [.generateEvent ⟨peer, connId, event⟩] }

/-- C3: an inbound request for a (peer, protocol) pair already at the concurrent cap of
two is answered through send_response with a RateLimited error response (immediately,
or through the delay queue when the response limiter defers it) and is never forwarded
to the application layer, while a request under the cap whose size is admissible is
forwarded as an RPCMessage event. -/
theorem inbound_request_cap (allows : PeerId → RPCCodedResponse → Except RateLimitedErr Unit)
    (now : Nat) (st : RPCState) (peer : PeerId) (connId sid : Nat) (req : InboundRequest) :
    let errResp := RPCCodedResponse.errorResponse .rateLimited .activeRequestSameProtocol
      req.protocol
    let st1 := st.onConnectionHandlerEvent allows now peer connId (.okEvent (.request sid req))
    (2 ≤ countActiveRequests st peer req.protocol →
      ((st1.events = st.events ++ [.notifyHandler peer connId (.response sid errResp)]
          ∧ st1.delayed_responses = st.delayed_responses)
        ∨ (st1.events = st.events
          ∧ ∃ w, st1.delayed_responses = st.delayed_responses ++
              [{ key := st.next_delay_key, peer_id := peer, connection_id := connId
                 substream_id := sid, response := errResp, deadline := now + w }])))
    ∧ (countActiveRequests st peer req.protocol < 2 →
        st.isRequestSizeTooLarge req = false →
        st1.events = st.events ++
          [.generateEvent ⟨peer, connId, .okEvent (.request sid req)⟩]) := by
  intro errResp st1
  constructor
  · intro hcap
    have hflag : st.activeLimiterAllows peer req.protocol connId sid = (false, st) := by
      simp [RPCState.activeLimiterAllows, hcap]
    simp only [st1, RPCState.onConnectionHandlerEvent, hflag, Bool.not_false, if_pos]
    cases hv : allows peer errResp with
    | ok u =>
      left
      cases u
      simp [RPCState.sendResponse, hv, tryResponseLimiter, RPCState.sendResponseInner,
        RPCState.activeLimiterRemove]
    | error e =>
      cases e with
      | tooLarge =>
        left
        simp [RPCState.sendResponse, hv, tryResponseLimiter, RPCState.sendResponseInner,
          RPCState.activeLimiterRemove]
      | tooSoon w =>
        right
        refine ⟨?_, w, ?_⟩ <;>
          simp [RPCState.sendResponse, hv, tryResponseLimiter, RPCState.activeLimiterRemove]
  · intro hcap hsize
    have hflag : st.activeLimiterAllows peer req.protocol connId sid =
        (true,
         { st with
            active_inbound_requests :=
              st.active_inbound_requests ++ [(peer, req.protocol, connId, sid)] }) := by
      simp [RPCState.activeLimiterAllows, Nat.not_le.mpr hcap]
    have hsize2 :
        ({ st with
            active_inbound_requests :=
              st.active_inbound_requests ++ [(peer, req.protocol, connId, sid)] } :
            RPCState).isRequestSizeTooLarge req = false := by
      simpa [RPCState.isRequestSizeTooLarge] using hsize
    simp [st1, RPCState.onConnectionHandlerEvent, hflag, hsize2]

/-- C3 witness: with two active BlocksByRoot requests from peer 1, a third is answered
with a RateLimited error and never forwarded; with none active it is forwarded. -/
theorem inbound_request_cap_witness :
    let st : RPCState :=
      { response_limiter := none, outbound_request_limiter := none
        response_limiter_new := { quotas := [] }, events := []
        active_inbound_requests := [(1, .blocksByRoot, 0, 0), (1, .blocksByRoot, 0, 1)]
        delayed_responses := [], next_delay_key := 0, self_limiter_pending := []
        max_request_blocks := 1024, max_request_blob_sidecars := 768
        max_request_data_column_sidecars := 16384 }
    let req : InboundRequest := { protocol := .blocksByRoot, max_responses := 1 }
    let errResp := RPCCodedResponse.errorResponse .rateLimited .activeRequestSameProtocol
      req.protocol
    let st1 := st.onConnectionHandlerEvent (fun _ _ => .ok ()) 0 1 0 (.okEvent (.request 2 req))
    (st1.events = st.events ++ [.notifyHandler 1 0 (.response 2 errResp)]
        ∧ st1.delayed_responses = st.delayed_responses)
      ∨ (st1.events = st.events
        ∧ ∃ w, st1.delayed_responses = st.delayed_responses ++
            [{ key := st.next_delay_key, peer_id := 1, connection_id := 0
               substream_id := 2, response := errResp, deadline := 0 + w }]) := by
  exact (inbound_request_cap (fun _ _ => .ok ()) 0 _ 1 0 2 _).1 (by decide)

/-- C4: for every outbound response, a TooLarge verdict passes the limiter and the
response is sent immediately anyway, a TooSoon verdict enqueues it in the delay queue
at the current instant plus the wait time without sending, and an allowing verdict
sends immediately; in each case the response is either in the event queue or in the
delay queue, never dropped. -/
theorem send_response_never_dropped
    (allows : PeerId → RPCCodedResponse → Except RateLimitedErr Unit) (now : Nat)
    (st : RPCState) (peer : PeerId) (connId sid : Nat) (resp : RPCCodedResponse) :
    let st1 := st.sendResponse allows now peer connId sid resp
    (allows peer resp = .error .tooLarge →
      tryResponseLimiter (allows peer resp) = .ok ()
      ∧ st1.events = st.events ++ [.notifyHandler peer connId (.response sid resp)]
      ∧ st1.delayed_responses = st.delayed_responses)
    ∧ (∀ w, allows peer resp = .error (.tooSoon w) →
        st1.events = st.events
        ∧ st1.delayed_responses = st.delayed_responses ++
            [{ key := st.next_delay_key, peer_id := peer, connection_id := connId
               substream_id := sid, response := resp, deadline := now + w }])
    ∧ (allows peer resp = .ok () →
        st1.events = st.events ++ [.notifyHandler peer connId (.response sid resp)]
        ∧ st1.delayed_responses = st.delayed_responses) := by
  intro st1
  refine ⟨?_, ?_, ?_⟩
  · intro hv
    refine ⟨by simp [tryResponseLimiter, hv], ?_, ?_⟩ <;>
      simp [st1, RPCState.sendResponse, hv, tryResponseLimiter, RPCState.sendResponseInner,
        RPCState.activeLimiterRemove]
  · intro w hv
    constructor <;>
      simp [st1, RPCState.sendResponse, hv, tryResponseLimiter, RPCState.activeLimiterRemove]
  · intro hv
    constructor <;>
      simp [st1, RPCState.sendResponse, hv, tryResponseLimiter, RPCState.sendResponseInner,
        RPCState.activeLimiterRemove]

/-- C4 witness: with a limiter that defers by 5, the response lands in the delay queue
at instant 5 and the event queue stays empty. -/
theorem send_response_never_dropped_witness :
    let st : RPCState :=
      { response_limiter := none, outbound_request_limiter := none
        response_limiter_new := { quotas := [] }, events := []
        active_inbound_requests := [], delayed_responses := [], next_delay_key := 0
        self_limiter_pending := [], max_request_blocks := 1024
        max_request_blob_sidecars := 768, max_request_data_column_sidecars := 16384 }
    let resp := RPCCodedResponse.success .blocksByRoot 0
    let st1 := st.sendResponse (fun _ _ => .error (.tooSoon 5)) 0 1 0 2 resp
    st1.events = st.events
    ∧ st1.delayed_responses = st.delayed_responses ++
        [{ key := st.next_delay_key, peer_id := 1, connection_id := 0
           substream_id := 2, response := resp, deadline := 0 + 5 }] := by
  exact (send_response_never_dropped (fun _ _ => .error (.tooSoon 5)) 0 _ 1 0 2 _).2.1 5 rfl

/-- The earliest expired entry of the delayed-responses queue at the given instant,
preferring the earliest deadline and, among equal deadlines, the earliest insertion,
as DelayQueue::poll_expired does; none when no entry has expired. The queue itself is
the tokio-util DelayQueue, modelled from its documented contract. -/
def earliestExpired (now : Nat) : List DelayedEntry → Option DelayedEntry
  | [] => none
  | e :: rest =>
    match earliestExpired now rest with
    | none => if e.deadline ≤ now then some e else none
    | some f => if e.deadline ≤ now ∧ e.deadline ≤ f.deadline then some e else some f

theorem earliestExpired_mem {now : Nat} {l : List DelayedEntry} {e : DelayedEntry}
    (h : earliestExpired now l = some e) : e ∈ l := by
  induction l generalizing e with
  | nil => simp [earliestExpired] at h
  | cons x xs ih =>
    simp only [earliestExpired] at h
    split at h
    · split at h
      · injection h with h
        exact h ▸ List.mem_cons_self x xs
      · exact absurd h (by simp)
    · rename_i f heq
      split at h
      · injection h with h
        exact h ▸ List.mem_cons_self x xs
      · injection h with h
        exact h ▸ List.mem_cons_of_mem x (ih heq)

theorem earliestExpired_expired {now : Nat} {l : List DelayedEntry} {e : DelayedEntry}
    (h : earliestExpired now l = some e) : e.deadline ≤ now := by
  induction l generalizing e with
  | nil => simp [earliestExpired] at h
  | cons x xs ih =>
    simp only [earliestExpired] at h
    split at h
    · split at h
      · rename_i hx
        injection h with h
        exact h ▸ hx
      · exact absurd h (by simp)
    · rename_i f heq
      split at h
      · rename_i hx
        injection h with h
        exact h ▸ hx.1
      · injection h with h
        exact h ▸ ih heq

theorem earliestExpired_none_no_expired {now : Nat} {l : List DelayedEntry}
    (h : earliestExpired now l = none) :
    ∀ g ∈ l, ¬ g.deadline ≤ now := by
  induction l with
  | nil => intro g hg; simp at hg
  | cons x xs ih =>
    intro g hg hgle
    simp only [earliestExpired] at h
    split at h
    · rename_i heq
      split at h
      · simp at h
      · rename_i hx
        rcases List.mem_cons.mp hg with rfl | hmem
        · exact hx hgle
        · exact ih heq g hmem hgle
    · split at h <;> simp at h

theorem earliestExpired_min {now : Nat} {l : List DelayedEntry} {e : DelayedEntry}
    (h : earliestExpired now l = some e) :
    ∀ f ∈ l, f.deadline ≤ now → e.deadline ≤ f.deadline := by
  induction l generalizing e with
  | nil => simp [earliestExpired] at h
  | cons x xs ih =>
    intro f hf hfexp
    simp only [earliestExpired] at h
    split at h
    · rename_i heq
      split at h
      · injection h with h
        subst h
        rcases List.mem_cons.mp hf with rfl | hmem
        · exact le_refl _
        · exact absurd hfexp (earliestExpired_none_no_expired heq f hmem)
      · exact absurd h (by simp)
    · rename_i g heq
      split at h
      · rename_i hx
        injection h with h
        subst h
        rcases List.mem_cons.mp hf with rfl | hmem
        · exact le_refl _
        · exact le_trans hx.2 (ih heq f hmem hfexp)
      · rename_i hx
        injection h with h
        subst h
        rcases List.mem_cons.mp hf with rfl | hmem
        · exact le_of_not_le (fun hle => hx ⟨hfexp, hle⟩)
        · exact ih heq f hmem hfexp

/-- Mirrors the delayed-responses handling of RPC::poll: at most one expired entry is
taken from the delay queue per poll (the earliest by deadline) and sent through
send_response_inner; the entry is removed from the queue. -/
def RPCState.pollDelayedResponses (st : RPCState) (now : Nat) :
    RPCState × Option DelayedEntry :=
  match earliestExpired now st.delayed_responses with
  | none => (st, none)
  | some e =>
    (({ st with
          delayed_responses :=
            st.delayed_responses.filter (fun f => !(f.key == e.key)) } :
       RPCState).sendResponseInner e.peer_id e.connection_id e.substream_id e.response,
     some e)

theorem length_filter_not_add_countP (p : α → Bool) (l : List α) :
    (l.filter (fun f => !(p f))).length + l.countP p = l.length := by
  induction l with
  | nil => rfl
  | cons x xs ih =>
    by_cases hx : p x = true <;>
      simp [List.filter_cons, List.countP_cons, hx, ← ih] <;> omega

/-- C5: when a poll of the delayed-responses queue emits an entry, the entry had
reached its scheduled instant (never early), it is the earliest expired entry (so
successive polls emit in expiry-time order), it is removed from the queue (so it fires
at most once), exactly one entry is drained by the poll when its key is unique, and
the response is sent through the event queue. -/
theorem poll_delayed_responses_ordered (st : RPCState) (now : Nat) (e : DelayedEntry)
    (h : (st.pollDelayedResponses now).2 = some e) :
    e.deadline ≤ now
    ∧ (∀ f ∈ st.delayed_responses, f.deadline ≤ now → e.deadline ≤ f.deadline)
    ∧ e ∈ st.delayed_responses
    ∧ (∀ f ∈ (st.pollDelayedResponses now).1.delayed_responses, f.key ≠ e.key)
    ∧ (st.pollDelayedResponses now).1.delayed_responses.length
        + st.delayed_responses.countP (fun f => f.key == e.key)
        = st.delayed_responses.length
    ∧ (st.pollDelayedResponses now).1.events
        = st.events ++
            [.notifyHandler e.peer_id e.connection_id (.response e.substream_id e.response)] := by
  have hfind : earliestExpired now st.delayed_responses = some e := by
    by_cases hq : (earliestExpired now st.delayed_responses).isSome
    · cases hqq : earliestExpired now st.delayed_responses with
      | none => rw [hqq] at hq; simp at hq
      | some f =>
        simp only [RPCState.pollDelayedResponses, hqq] at h
        injection h with h
        rw [h]
    · cases hqq : earliestExpired now st.delayed_responses with
      | none =>
        simp only [RPCState.pollDelayedResponses, hqq] at h
        exact absurd h (by simp)
      | some f => rw [hqq] at hq; simp at hq
  refine ⟨earliestExpired_expired hfind, earliestExpired_min hfind, earliestExpired_mem hfind,
    ?_, ?_, ?_⟩
  · intro f hf
    simp only [RPCState.pollDelayedResponses, hfind, RPCState.sendResponseInner] at hf
    have := List.mem_filter.mp hf
    simpa using this.2
  · simp only [RPCState.pollDelayedResponses, hfind, RPCState.sendResponseInner]
    exact length_filter_not_add_countP (fun f => f.key == e.key) st.delayed_responses
  · simp [RPCState.pollDelayedResponses, hfind, RPCState.sendResponseInner]

/-- C5 witness: a queue holding entries with deadlines 9 and 3 polled at instant 5
emits the deadline-3 entry, removes it, and appends the response to the events. -/
theorem poll_delayed_responses_ordered_witness :
    let e1 : DelayedEntry :=
      { key := 0, peer_id := 1, connection_id := 0, substream_id := 4
        response := .success .blocksByRoot 0, deadline := 9 }
    let e2 : DelayedEntry :=
      { key := 1, peer_id := 2, connection_id := 0, substream_id := 5
        response := .success .blobsByRoot 0, deadline := 3 }
    let st : RPCState :=
      { response_limiter := none, outbound_request_limiter := none
        response_limiter_new := { quotas := [] }, events := []
        active_inbound_requests := [], delayed_responses := [e1, e2], next_delay_key := 2
        self_limiter_pending := [], max_request_blocks := 1024
        max_request_blob_sidecars := 768, max_request_data_column_sidecars := 16384 }
    e2.deadline ≤ 5
    ∧ (∀ f ∈ st.delayed_responses, f.deadline ≤ 5 → e2.deadline ≤ f.deadline)
    ∧ e2 ∈ st.delayed_responses
    ∧ (∀ f ∈ (st.pollDelayedResponses 5).1.delayed_responses, f.key ≠ e2.key)
    ∧ (st.pollDelayedResponses 5).1.delayed_responses.length
        + st.delayed_responses.countP (fun f => f.key == e2.key)
        = st.delayed_responses.length
    ∧ (st.pollDelayedResponses 5).1.events
        = st.events ++
            [.notifyHandler e2.peer_id e2.connection_id
              (.response e2.substream_id e2.response)] := by
  exact poll_delayed_responses_ordered _ 5 _ (by decide)

/-- Modelled from the spec: self_limiter.rs is not under src/. peer_disconnected
removes and returns the request ids and protocols queued in the self rate limiter for
the disconnected peer. -/
def selfLimiterPeerDisconnected (pending : List (PeerId × Id × Protocol)) (peer : PeerId) :
    List (Id × Protocol) × List (PeerId × Id × Protocol) :=
  ((pending.filter (fun e => e.1 == peer)).map (fun e => e.2),
   pending.filter (fun e => !(e.1 == peer)))

/-- The in-place rewrite applied by RPC::on_swarm_event to each queued behaviour
action: a NotifyHandler carrying an outbound request to the disconnected peer becomes
a GenerateEvent reporting a Disconnected outbound error for the same request id and
the request protocol; everything else is left unchanged. -/
def rewriteDisconnected (peer : PeerId) (connId : Nat) :
    BehaviourAction → BehaviourAction
  | .notifyHandler p c (.request rid req) =>
    if p = peer then
      .generateEvent ⟨peer, connId, .errEvent (.outbound rid req.protocol .disconnected)⟩
    else .notifyHandler p c (.request rid req)
  | ev => ev

/-- Mirrors the ConnectionClosed handling of RPC::on_swarm_event: nothing happens while
connections remain; on the last close, every request pending for the peer in the self
rate limiter is reported as a Disconnected outbound error, and every queued
NotifyHandler request to the peer is rewritten in place into a Disconnected error
event. -/
def RPCState.onSwarmEventConnectionClosed (st : RPCState) (peer : PeerId) (connId : Nat)
    (remaining : Nat) : RPCState :=
  if 0 < remaining then st
  else
    let pd := selfLimiterPeerDisconnected st.self_limiter_pending peer
    let errEvents := pd.1.map (fun ip =>
      BehaviourAction.generateEvent
        ⟨peer, connId, .errEvent (.outbound ip.1 ip.2 .disconnected)⟩)
    { st with
        events := (st.events ++ errEvents).map (rewriteDisconnected peer connId)
        self_limiter_pending := pd.2 }

/-- C6: when the last connection to a peer closes, every request pending in the self
limiter for that peer surfaces as a Disconnected outbound error event, every queued
NotifyHandler request to that peer is rewritten in place into a Disconnected error
event with the same request id and protocol, all other queued events are preserved at
their positions, and when connections remain nothing changes. -/
theorem connection_closed_terminal_events (st : RPCState) (peer : PeerId) (connId : Nat)
    (remaining : Nat) :
    let st1 := st.onSwarmEventConnectionClosed peer connId remaining
    (0 < remaining → st1 = st)
    ∧ (remaining = 0 →
        (∀ rid proto, (peer, rid, proto) ∈ st.self_limiter_pending →
          BehaviourAction.generateEvent
              ⟨peer, connId, .errEvent (.outbound rid proto .disconnected)⟩ ∈ st1.events)
        ∧ (∀ (i : Nat) (ev : BehaviourAction), st.events[i]? = some ev →
            (∀ c rid req, ev = BehaviourAction.notifyHandler peer c (.request rid req) →
              st1.events[i]? = some (BehaviourAction.generateEvent
                ⟨peer, connId, .errEvent (.outbound rid req.protocol .disconnected)⟩))
            ∧ ((∀ c rid req, ev ≠ BehaviourAction.notifyHandler peer c (.request rid req)) →
              st1.events[i]? = some ev))) := by
  intro st1
  constructor
  · intro hpos
    simp [st1, RPCState.onSwarmEventConnectionClosed, hpos]
  · intro hzero
    subst hzero
    have hev : st1.events =
        (st.events ++
          ((st.self_limiter_pending.filter (fun e => e.1 == peer)).map (fun e => e.2)).map
            (fun ip => BehaviourAction.generateEvent
              ⟨peer, connId, .errEvent (.outbound ip.1 ip.2 .disconnected)⟩)).map
          (rewriteDisconnected peer connId) := by
      simp [st1, RPCState.onSwarmEventConnectionClosed, selfLimiterPeerDisconnected]
    constructor
    · intro rid proto hmem
      rw [hev]
      have h1 : (peer, rid, proto) ∈
          st.self_limiter_pending.filter (fun e => e.1 == peer) :=
        List.mem_filter.mpr ⟨hmem, by simp⟩
      have h2 : ((rid, proto) : Id × Protocol) ∈
          (st.self_limiter_pending.filter (fun e => e.1 == peer)).map (fun e => e.2) :=
        List.mem_map.mpr ⟨(peer, rid, proto), h1, rfl⟩
      have h3 : BehaviourAction.generateEvent
          ⟨peer, connId, .errEvent (.outbound rid proto .disconnected)⟩ ∈
          ((st.self_limiter_pending.filter (fun e => e.1 == peer)).map (fun e => e.2)).map
            (fun ip => BehaviourAction.generateEvent
              ⟨peer, connId, .errEvent (.outbound ip.1 ip.2 .disconnected)⟩) :=
        List.mem_map.mpr ⟨(rid, proto), h2, rfl⟩
      have h4 := List.mem_append_right st.events h3
      have h5 := List.mem_map_of_mem (rewriteDisconnected peer connId) h4
      simpa [rewriteDisconnected] using h5
    · intro i ev hi
      have hlt : i < st.events.length := by
        by_contra hge
        rw [List.getElem?_eq_none (Nat.le_of_not_lt hge)] at hi
        exact absurd hi (by simp)
      have hidx : st1.events[i]? = some (rewriteDisconnected peer connId ev) := by
        rw [hev, List.getElem?_map, List.getElem?_append_left hlt, hi]
        rfl
      constructor
      · intro c rid req hshape
        subst hshape
        rw [hidx]
        simp [rewriteDisconnected]
      · intro hshape
        rw [hidx]
        cases ev with
        | generateEvent m => rfl
        | closeConnection p => rfl
        | notifyHandler p c s =>
          cases s with
          | request rid req =>
            have hp : p ≠ peer := by
              intro hpe
              exact hshape c rid req (by rw [hpe])
            simp [rewriteDisconnected, hp]
          | response sid resp => rfl
          | shutdownSend rid => rfl

/-- C6 witness: with one pending self-limited request and one queued request to peer 1,
the last connection close surfaces the pending request as a Disconnected error and
rewrites the queued request in place. -/
theorem connection_closed_terminal_events_witness :
    let st : RPCState :=
      { response_limiter := none, outbound_request_limiter := none
        response_limiter_new := { quotas := [] }
        events := [.notifyHandler 1 0 (.request 9 { protocol := .blocksByRoot })]
        active_inbound_requests := [], delayed_responses := [], next_delay_key := 0
        self_limiter_pending := [(1, 4, .blocksByRoot), (2, 5, .ping)]
        max_request_blocks := 1024, max_request_blob_sidecars := 768
        max_request_data_column_sidecars := 16384 }
    let st1 := st.onSwarmEventConnectionClosed 1 0 0
    (∀ rid proto, ((1 : PeerId), rid, proto) ∈ st.self_limiter_pending →
      BehaviourAction.generateEvent
          ⟨1, 0, .errEvent (.outbound rid proto .disconnected)⟩ ∈ st1.events)
    ∧ (∀ (i : Nat) (ev : BehaviourAction), st.events[i]? = some ev →
        (∀ c rid req, ev = BehaviourAction.notifyHandler 1 c (.request rid req) →
          st1.events[i]? = some (BehaviourAction.generateEvent
            ⟨1, 0, .errEvent (.outbound rid req.protocol .disconnected)⟩))
        ∧ ((∀ c rid req, ev ≠ BehaviourAction.notifyHandler 1 c (.request rid req)) →
          st1.events[i]? = some ev)) := by
  exact (connection_closed_terminal_events _ 1 0 0).2 rfl

/-- SyncState from the network globals, as produced by update_sync_state. -/
inductive SyncState
  | stalled
  | syncTransition
  | synced
  | syncingFinalized (start_slot target_slot : Slot)
  | syncingHead (start_slot target_slot : Slot)
  | backFillSyncing (completed remaining : Nat)
deriving DecidableEq, Repr

/-- Mirrors SyncState::is_synced. -/
def SyncState.isSynced : SyncState → Bool
  | .synced => true
  | _ => false

/-- SLOT_IMPORT_TOLERANCE from manager.rs. -/
def SLOT_IMPORT_TOLERANCE : Nat := 32

/-- The range-sync state consumed by update_sync_state. -/
inductive ChainState
  | idle
  | rangeFinalized (start_slot target_slot : Slot)
  | rangeHead (start_slot target_slot : Slot)
deriving DecidableEq, Repr

/-- The backfill start outcome consumed by update_sync_state; a start error leaves the
state as computed, like NotSyncing. -/
inductive SyncStart
  | syncingStart (completed remaining : Nat)
  | notSyncing
deriving DecidableEq, Repr

/-- Mirrors the idle branch of SyncManager::update_sync_state: Synced when the current
slot is at or after the head by at most the slot import tolerance and the head is
nonzero, otherwise SyncTransition when an advanced peer exists, Stalled when no synced
peer exists, and Synced otherwise. -/
def computeIdleSyncState (head currentSlot : Slot)
    (hasAdvancedPeers hasSyncedPeers : Bool) : SyncState :=
  if head ≤ currentSlot ∧ currentSlot - head ≤ SLOT_IMPORT_TOLERANCE ∧ 0 < head then
    .synced
  else if hasAdvancedPeers then .syncTransition
  else if !hasSyncedPeers then .stalled
  else .synced

/-- Mirrors SyncManager::update_sync_state with the range-sync state, the peer-db
predicates, and the backfill contract abstracted as inputs: a running range sync maps
to the corresponding syncing state; in the idle case a would-be Synced state first
offers the backfill a start and becomes BackFillSyncing when it begins. -/
def updateSyncState (chainState : ChainState) (head currentSlot : Slot)
    (hasAdvancedPeers hasSyncedPeers : Bool) (backfillStart : SyncStart) : SyncState :=
  match chainState with
  | .idle =>
    let s := computeIdleSyncState head currentSlot hasAdvancedPeers hasSyncedPeers
    if s = .synced then
      match backfillStart with
      | .syncingStart c r => .backFillSyncing c r
      | .notSyncing => s
    else s
  | .rangeFinalized a b => .syncingFinalized a b
  | .rangeHead a b => .syncingHead a b

/-- Mirrors the subscription condition at the end of update_sync_state: core gossip
topics are subscribed when the state changed, the new state is synced, and the old
state was neither Synced nor BackFillSyncing. -/
def shouldSubscribeCoreTopics (oldState newState : SyncState) : Bool :=
  newState ≠ oldState && newState.isSynced &&
    !(match oldState with
      | .synced => true
      | .backFillSyncing _ _ => true
      | _ => false)

/-- C8 counterexample: with range sync idle, local head 100 at current slot 100, an
advanced peer connected and backfill not starting, update_sync_state yields Synced,
because the first branch of the idle case tests only the clock against the head; this
contradicts the claim that an advanced peer always prevents the Synced state. -/
theorem updateSyncState_advanced_peer_still_synced :
    updateSyncState .idle 100 100 true true .notSyncing = SyncState.synced := by
  decide

/-- C8 amended: when range sync is idle, the local head is not within the slot import
tolerance of the current slot (or is zero), and an advanced peer is present, the state
is SyncTransition, never Synced; and a transition into Synced triggers the core-topic
subscription exactly when the state changed and the previous state was neither Synced
nor BackFillSyncing. -/
theorem updateSyncState_advanced_amended (head currentSlot : Slot)
    (hasSyncedPeers : Bool) (backfillStart : SyncStart) (oldState newState : SyncState)
    (h : ¬(head ≤ currentSlot ∧ currentSlot - head ≤ SLOT_IMPORT_TOLERANCE ∧ 0 < head)) :
    updateSyncState .idle head currentSlot true hasSyncedPeers backfillStart =
      SyncState.syncTransition
    ∧ (shouldSubscribeCoreTopics oldState newState = true ↔
        (newState ≠ oldState ∧ newState.isSynced = true
          ∧ oldState ≠ SyncState.synced
          ∧ ∀ c r, oldState ≠ SyncState.backFillSyncing c r)) := by
  constructor
  · have hidle : computeIdleSyncState head currentSlot true hasSyncedPeers =
        SyncState.syncTransition := by
      unfold computeIdleSyncState
      rw [if_neg h]
      simp
    simp [updateSyncState, hidle]
  · cases oldState <;> cases newState <;>
      simp [shouldSubscribeCoreTopics, SyncState.isSynced, Ne, eq_comm]

/-- C8 witness: with head 0 (outside the synced window), an advanced peer forces
SyncTransition, and moving from Stalled to Synced triggers the subscription. -/
theorem updateSyncState_advanced_amended_witness :
    updateSyncState .idle 0 100 true true .notSyncing = SyncState.syncTransition
    ∧ (shouldSubscribeCoreTopics .stalled .synced = true ↔
        (SyncState.synced ≠ SyncState.stalled ∧ SyncState.isSynced .synced = true
          ∧ SyncState.stalled ≠ SyncState.synced
          ∧ ∀ c r, SyncState.stalled ≠ SyncState.backFillSyncing c r)) := by
  exact updateSyncState_advanced_amended 0 100 true .notSyncing .stalled .synced (by decide)

end LighthouseSync
